import Mathlib

/-!
Verification of the structured-content generation pipeline of the
proposal-maker web application.

The development shallowly embeds the data model and the pure fragments of the
request handlers:

* a JSON value type mirroring what JSON.parse produces, together with the
  JavaScript truthiness, property access, spread and stringify semantics the
  handlers rely on;
* the deck-shape response validator/normalizer of the text-to-deck endpoint
  (pages/api/text-to-json, shipped in pages/api/settings.ts);
* the design-token response normalizer of the image-to-design-tokens endpoint
  (pages/api/design-library.ts) and the pre-call guard sequences of the three
  model-invoking handlers;
* the prompt-template placeholder substitution (String.prototype.replace with
  a string pattern, including the replacement-pattern expansion of "$");
* the share-link view tracking of pages/proposal/[shareableLink].tsx;
* the credential encryption envelope of lib/utils.ts and the credential
  settings read path of pages/api/settings.ts.

Machine integers do not occur: the sizes involved are small enough that the
JavaScript float arithmetic in the image-size check is exact, so Nat models it
faithfully.  The AES-256-CBC primitive and the scrypt key derivation are
external library calls (Node crypto); they are modelled as parameters of the
envelope functions, with their standard inverse property taken as a
hypothesis where a theorem needs it.
-/

/-! ## JSON values

The value space of JSON.parse: null, booleans, numbers, strings, arrays and
objects.  Numbers are modelled as integers; no claim involves fractional
model output.  Objects are ordered association lists; JSON.parse collapses a
repeated key keeping the last binding, so property lookup below takes the
last match.
-/

inductive Json where
  | null
  | bool (b : Bool)
  | num (n : Int)
  | str (s : String)
  | arr (elems : List Json)
  | obj (fields : List (String × Json))
deriving Repr

mutual

def Json.beq : Json → Json → Bool
  | .null, .null => true
  | .bool a, .bool b => a == b
  | .num a, .num b => a == b
  | .str a, .str b => a == b
  | .arr a, .arr b => Json.beqList a b
  | .obj a, .obj b => Json.beqFields a b
  | _, _ => false

def Json.beqList : List Json → List Json → Bool
  | [], [] => true
  | x :: xs, y :: ys => Json.beq x y && Json.beqList xs ys
  | _, _ => false

def Json.beqFields : List (String × Json) → List (String × Json) → Bool
  | [], [] => true
  | (k1, v1) :: xs, (k2, v2) :: ys => k1 == k2 && Json.beq v1 v2 && Json.beqFields xs ys
  | _, _ => false

end

mutual

theorem Json.beq_iff_eq : ∀ a b : Json, Json.beq a b = true ↔ a = b
  | .null, .null => by simp [Json.beq]
  | .bool _, .bool _ => by simp [Json.beq]
  | .num _, .num _ => by simp [Json.beq]
  | .str _, .str _ => by simp [Json.beq]
  | .arr x, .arr y => by simp [Json.beq, Json.beqList_iff_eq x y]
  | .obj x, .obj y => by simp [Json.beq, Json.beqFields_iff_eq x y]
  | .null, .bool _ | .null, .num _ | .null, .str _ | .null, .arr _ | .null, .obj _
  | .bool _, .null | .bool _, .num _ | .bool _, .str _ | .bool _, .arr _ | .bool _, .obj _
  | .num _, .null | .num _, .bool _ | .num _, .str _ | .num _, .arr _ | .num _, .obj _
  | .str _, .null | .str _, .bool _ | .str _, .num _ | .str _, .arr _ | .str _, .obj _
  | .arr _, .null | .arr _, .bool _ | .arr _, .num _ | .arr _, .str _ | .arr _, .obj _
  | .obj _, .null | .obj _, .bool _ | .obj _, .num _ | .obj _, .str _ | .obj _, .arr _ => by
      simp [Json.beq]

theorem Json.beqList_iff_eq : ∀ a b : List Json, Json.beqList a b = true ↔ a = b
  | [], [] => by simp [Json.beqList]
  | x :: xs, y :: ys => by
      simp [Json.beqList, Json.beq_iff_eq x y, Json.beqList_iff_eq xs ys]
  | [], _ :: _ => by simp [Json.beqList]
  | _ :: _, [] => by simp [Json.beqList]

theorem Json.beqFields_iff_eq : ∀ a b : List (String × Json), Json.beqFields a b = true ↔ a = b
  | [], [] => by simp [Json.beqFields]
  | (k1, v1) :: xs, (k2, v2) :: ys => by
      simp [Json.beqFields, Json.beq_iff_eq v1 v2, Json.beqFields_iff_eq xs ys]
  | [], _ :: _ => by simp [Json.beqFields]
  | _ :: _, [] => by simp [Json.beqFields]

end

instance : DecidableEq Json := fun a b =>
  decidable_of_iff (Json.beq a b = true) (Json.beq_iff_eq a b)

/-! ## JavaScript semantics helpers

The handlers test values with JavaScript truthiness, read properties with
dot access, copy objects with spread, and chain defaults with the logical-or
operator.  These helpers reproduce those semantics on the Json type.
-/

/-- JavaScript truthiness of a parsed JSON value: null, false, 0 and the
empty string are falsy; every array and object is truthy. -/
def Json.truthy : Json → Bool
  | .null => false
  | .bool b => b
  | .num n => n != 0
  | .str s => s != ""
  | .arr _ => true
  | .obj _ => true

/-- Last-match association lookup: JSON.parse keeps the last of a repeated
key, so the last binding is the one property access sees. -/
def lookupLast (fields : List (String × Json)) (key : String) : Option Json :=
  fields.foldl (fun acc p => if p.1 = key then some p.2 else acc) none

/-- Property access on a parsed value (undefined is None).  Access on a
non-object yields undefined; the one case that throws in JavaScript,
access on null, is handled where the surrounding try/catch is modelled. -/
def jsGet : Json → String → Option Json
  | .obj fields, key => lookupLast fields key
  | _, _ => none

/-- Property access collapsing undefined to null.  The two are
indistinguishable for truthiness, and every place the handlers apply
typeof to a property value has already ruled both out by a truthiness
test, so the collapse is observationally faithful. -/
def jsGetD (j : Json) (key : String) : Json := (jsGet j key).getD Json.null

/-- The JavaScript logical-or on values: the left operand if truthy,
otherwise the right. -/
def jsOr (a b : Json) : Json := if a.truthy then a else b

/-- Truthiness of a possibly-undefined value (undefined is falsy). -/
def truthyOpt (a : Option Json) : Bool :=
  match a with
  | some v => v.truthy
  | none => false

def Json.isString : Json → Bool
  | .str _ => true
  | _ => false

/-- The test typeof x === 'object': true for objects, arrays and null. -/
def Json.typeofObject : Json → Bool
  | .obj _ => true
  | .arr _ => true
  | .null => true
  | _ => false

/-- The own enumerable properties an object spread copies: an object
contributes its fields, an array or a string its index-keyed elements, and
every other value (including null) contributes nothing. -/
def spreadFields : Json → List (String × Json)
  | .obj fields => fields
  | .arr elems => elems.enum.map (fun p => (toString p.1, p.2))
  | .str s => s.data.enum.map (fun p => (toString p.1, Json.str (String.mk [p.2])))
  | _ => []

/-- String.prototype.startsWith, stated on the character lists so that it
evaluates by kernel reduction. -/
def strStartsWith (s p : String) : Bool := p.data.isPrefixOf s.data

/-! ## JSON.stringify(value, null, 2)

The design-token normalizer serializes object-typed analysis values with a
two-space indent.  The string quoting escapes the quote, the backslash and
control characters exactly as ECMA-262 QuoteJSONString does.
-/

def jsonQuoteChar (c : Char) : List Char :=
  if c = '"' then ['\\', '"']
  else if c = '\\' then ['\\', '\\']
  else if c = '\x08' then ['\\', 'b']
  else if c = '\x09' then ['\\', 't']
  else if c = '\x0a' then ['\\', 'n']
  else if c = '\x0c' then ['\\', 'f']
  else if c = '\x0d' then ['\\', 'r']
  else if c.toNat < 0x20 then
    ['\\', 'u', '0', '0',
     "0123456789abcdef".data.getD (c.toNat / 16) '0',
     "0123456789abcdef".data.getD (c.toNat % 16) '0']
  else [c]

def jsonQuote (s : String) : String :=
  "\"" ++ String.mk (s.data.flatMap jsonQuoteChar) ++ "\""

mutual

def serializeJson (indent : String) : Json → String
  | .null => "null"
  | .bool true => "true"
  | .bool false => "false"
  | .num n => toString n
  | .str s => jsonQuote s
  | .arr [] => "[]"
  | .arr (e :: es) =>
      "[\n" ++ indent ++ "  " ++
        String.intercalate (",\n" ++ indent ++ "  ")
          (serializeList (indent ++ "  ") (e :: es)) ++
      "\n" ++ indent ++ "]"
  | .obj [] => "\x7b\x7d"
  | .obj (f :: fs) =>
      "\x7b\n" ++ indent ++ "  " ++
        String.intercalate (",\n" ++ indent ++ "  ")
          (serializeFields (indent ++ "  ") (f :: fs)) ++
      "\n" ++ indent ++ "\x7d"

def serializeList (indent : String) : List Json → List String
  | [] => []
  | e :: es => serializeJson indent e :: serializeList indent es

def serializeFields (indent : String) : List (String × Json) → List String
  | [] => []
  | (k, v) :: fs =>
      (jsonQuote k ++ ": " ++ serializeJson indent v) :: serializeFields indent fs

end

/-- JSON.stringify(value, null, 2). -/
def jsonStringify2 (j : Json) : String := serializeJson "" j

/-! ## Shared request-handler types -/

/-- An HTTP error response: status code plus message, as produced by
res.status(code).json with a message field. -/
structure ApiError where
  status : Nat
  message : String
deriving DecidableEq, Repr

/-- Outcome of the guard phase of a model-invoking handler: either an error
response issued before any outbound request, or the decrypted credential the
handler passes on to its call-the-model function.  Each call-the-model
function performs exactly one fetch, so the guard outcome determines the
outbound call count. -/
def outboundCalls (r : Except ApiError String) : Nat :=
  match r with
  | .ok _ => 1
  | .error _ => 0

/-- A system-prompt record as the handlers read it from the store. -/
structure SystemPromptRec where
  prompt : String
  isActive : Bool

namespace TextToJson

/-! The text-to-deck endpoint (POST /api/text-to-json).  callGroqAPI parses
the completion, validates the slides field, synthesizes missing slide ids
and types, and rebuilds the response record.  The handler validates the
body and the model selector and resolves the stored credential before
calling callGroqAPI. -/

/-- The normalized deck record callGroqAPI returns: presentationTitle,
totalSlides recomputed from the actual slide count, and the enhanced
slides. -/
structure DeckResult where
  presentationTitle : Json
  totalSlides : Nat
  slides : List Json
deriving DecidableEq, Repr

/-- The object literal built for one non-null slide entry: the spread of
the slide with id set to (slide.id or a fresh randomUUID) and type set to
(slide.type or 'content'). -/
def enhancedSlideObj (freshId : String) (slide : Json) : Json :=
  Json.obj (spreadFields slide ++
    [("id", jsOr (jsGetD slide "id") (Json.str freshId)),
     ("type", jsOr (jsGetD slide "type") (Json.str "content"))])

/-- One step of the map in callGroqAPI.  A null slide entry makes the
slide.id access throw a TypeError (None here, converted to the generic
error by the surrounding catch); every other entry builds the enhanced
object literal. -/
def enhanceSlide (freshId : String) : Json → Option Json
  | Json.null => none
  | slide => some (enhancedSlideObj freshId slide)

/-- The slides.map over the parsed slides array, the first throw
propagating.  randomUUID draws a fresh token per slide; the supply is
modelled as a function of the slide index, threaded from start index i. -/
def enhancedSlides (fresh : Nat → String) (i : Nat) : List Json → Option (List Json)
  | [] => some []
  | s :: rest =>
      match enhanceSlide (fresh i) s with
      | none => none
      | some e =>
          match enhancedSlides fresh (i + 1) rest with
          | none => none
          | some es => some (e :: es)

/-- The validate-and-enhance body of the try block in callGroqAPI, applied
to the parsed completion: requires slides to be an array (the check
!jsonResponse.slides fails for a falsy field and Array.isArray for every
non-array), runs the enhancement map (whose TypeError on a null entry
propagates), then rebuilds the record with totalSlides taken from the
enhanced list length and the title defaulted when falsy. -/
def validateResponse (fresh : Nat → String) (j : Json) : Except String DeckResult :=
  match jsGet j "slides" with
  | some (Json.arr xs) =>
      match enhancedSlides fresh 0 xs with
      | some enhanced =>
          .ok { presentationTitle := jsOr (jsGetD j "presentationTitle") (Json.str "Generated Presentation")
                totalSlides := enhanced.length
                slides := enhanced }
      | none => .error "TypeError: Cannot read properties of null (reading id)"
  | _ => .error "Invalid response structure: missing slides array"

/-- The whole try/catch around validation in callGroqAPI: any failure inside
the try block (the missing-slides throw, the TypeError a null completion
value raises on property access, and the TypeError a null slide entry
raises inside the map) is caught and re-thrown as the generic parse
error. -/
def normalizeResponse (fresh : Nat → String) (j : Json) : Except String DeckResult :=
  match validateResponse fresh j with
  | .ok r => .ok r
  | .error _ => .error "Invalid JSON response from AI model"

def deckTitle (e : Except String DeckResult) : Json :=
  match e with
  | .ok r => r.presentationTitle
  | .error _ => Json.null

def deckTotal (e : Except String DeckResult) : Nat :=
  match e with
  | .ok r => r.totalSlides
  | .error _ => 0

def deckSlides (e : Except String DeckResult) : List Json :=
  match e with
  | .ok r => r.slides
  | .error _ => []

/-- The fixed model allow-list of the handler. -/
def validModels : List String := ["openai/gpt-oss-20b", "openai/gpt-oss-120b"]

/-- The guard sequence of the handler before callGroqAPI: text and model
must be non-empty strings, the model must be allow-listed, the stored
credential must exist and decrypt to a truthy string.  storedKey is the
user's groqApiKey field (None when the user or the field is missing); dec
is getDecryptedApiKey, returning None when decryption fails.  On success
the handler proceeds to callGroqAPI with the decrypted key: one outbound
request.  No credential-format check occurs on this path. -/
def handlerPreCall (body : Json) (storedKey : Option String)
    (dec : String → Option String) : Except ApiError String :=
  match jsGet body "text" with
  | some (Json.str t) =>
      if t = "" then .error ⟨400, "Text content is required"⟩
      else
        match jsGet body "model" with
        | some (Json.str m) =>
            if m = "" then .error ⟨400, "Model selection is required"⟩
            else if ¬ (validModels.contains m) then
              .error ⟨400, "Invalid model selection"⟩
            else
              match storedKey with
              | none =>
                  .error ⟨400,
                    "Groq API key is required. Please configure your API key in settings."⟩
              | some sk =>
                  match dec sk with
                  | some k =>
                      if k = "" then .error ⟨500, "Error accessing API key"⟩
                      else .ok k
                  | none => .error ⟨500, "Error accessing API key"⟩
        | _ => .error ⟨400, "Model selection is required"⟩
  | _ => .error ⟨400, "Text content is required"⟩

end TextToJson

namespace DesignLibrary

/-! The image-to-design-tokens endpoint (POST /api/design-library).
callGroqVisionAPI parses the completion and reshapes the known field-name
variants into the canonical cssVariables/analysisResult pair; the handler
validates the body, the credential format and the image size before calling
it. -/

/-- The canonical pair the normalizer returns.  The fields hold whatever
JavaScript values the branches produce, so they are Json. -/
structure TokensResult where
  cssVariables : Json
  analysisResult : Json
deriving DecidableEq, Repr

/-- The shape-sniffing branch cascade of callGroqVisionAPI on the parsed
completion: the css+implementationNote pair (stringifying an object-typed
note), then the cssVariables+analysisResult pair (taken as-is), then the
generic fallback extractor chaining known field names with logical-or and
stringifying an object-typed analysis value. -/
def normalizeContentCore (p : Json) : TokensResult :=
  if truthyOpt (jsGet p "css") && truthyOpt (jsGet p "implementationNote") then
    let note := jsGetD p "implementationNote"
    { cssVariables := jsGetD p "css"
      analysisResult := if note.typeofObject then Json.str (jsonStringify2 note) else note }
  else if truthyOpt (jsGet p "cssVariables") && truthyOpt (jsGet p "analysisResult") then
    { cssVariables := jsGetD p "cssVariables"
      analysisResult := jsGetD p "analysisResult" }
  else
    let cssContent :=
      jsOr (jsGetD p "css") (jsOr (jsGetD p "cssVariables")
        (jsOr (jsGetD p "styles") (Json.str "")))
    let analysisContent :=
      jsOr (jsGetD p "implementationNote") (jsOr (jsGetD p "analysisResult")
        (jsOr (jsGetD p "analysis") (Json.str "")))
    { cssVariables := cssContent
      analysisResult :=
        if analysisContent.typeofObject then Json.str (jsonStringify2 analysisContent)
        else analysisContent }

/-- The try/catch around the branch cascade: a null completion value makes
the first property access throw a TypeError, which the catch converts to
the generic parse error; every other parsed value flows through the
cascade. -/
def normalizeContent (p : Json) : Except String TokensResult :=
  match p with
  | Json.null => .error "Invalid JSON response from Groq API"
  | _ => .ok (normalizeContentCore p)

/-- Math.ceil(length * 3 / 4): the handler's estimate of the decoded byte
count of the base64 text.  The float arithmetic is exact for every length
below 2 to the 50th, so Nat ceiling division models it. -/
def imageSizeInBytes (len : Nat) : Nat := (len * 3 + 3) / 4

/-- The size guard: bytes / (1024 * 1024) > 4, which for exact float
division on these magnitudes is bytes > 4 * 1024 * 1024. -/
def imageTooLarge (len : Nat) : Bool := 4 * 1024 * 1024 < imageSizeInBytes len

/-- The length the handler's size checks see: .length of a string (chars;
base64 text is ASCII so UTF-16 units coincide), .length of an array
(element count).  Any other truthy value has an undefined length, every
comparison against which is false, so both checks pass: None. -/
def jsImageLen : Json → Option Nat
  | .str s => some s.length
  | .arr elems => some elems.length
  | _ => none

/-- The guard sequence of the POST handler before callGroqVisionAPI:
required fields, active system prompt, stored credential, decryption,
the gsk underscore prefix check, the minimum image length and the image
size ceiling.  promptLookup is the SystemPrompt.findById result. -/
def handlerPreCall (body : Json) (promptLookup : Option SystemPromptRec)
    (storedKey : Option String) (dec : String → Option String) : Except ApiError String :=
  if ¬ (truthyOpt (jsGet body "name") ∧ truthyOpt (jsGet body "description") ∧
        truthyOpt (jsGet body "imageBase64") ∧ truthyOpt (jsGet body "systemPromptId")) then
    .error ⟨400, "Name, description, image, and system prompt are required"⟩
  else
    match promptLookup with
    | none => .error ⟨400, "System prompt not found or inactive"⟩
    | some sp =>
        if ¬ sp.isActive then .error ⟨400, "System prompt not found or inactive"⟩
        else
          match storedKey with
          | none => .error ⟨400, "Groq API key not configured"⟩
          | some sk =>
              match dec sk with
              | none => .error ⟨400, "Invalid Groq API key"⟩
              | some k =>
                  if k = "" then .error ⟨400, "Invalid Groq API key"⟩
                  else if ¬ (strStartsWith k "gsk_") then
                    .error ⟨400, "Invalid Groq API key format"⟩
                  else
                    let len := jsImageLen (jsGetD body "imageBase64")
                    if (match len with | some L => decide (L < 100) | none => false) then
                      .error ⟨400, "Invalid image data"⟩
                    else if (match len with | some L => imageTooLarge L | none => false) then
                      .error ⟨400, "Image too large. Maximum size is 4MB"⟩
                    else .ok k

end DesignLibrary

namespace GenerateHtml

/-! The deck-to-HTML endpoint (POST /api/generate-html-presentation): the
guard sequence before its callGroqAPI, including the credential-format
check. -/

def handlerPreCall (body : Json) (designLibraryFound : Bool)
    (storedKey : Option String) (dec : String → Option String) : Except ApiError String :=
  if ¬ (truthyOpt (jsGet body "jsonData") ∧ truthyOpt (jsGet body "designLibraryId")) then
    .error ⟨400, "JSON data and design library ID are required"⟩
  else
    let jsonData := jsGetD body "jsonData"
    if ¬ ((match jsGet jsonData "slides" with
           | some (Json.arr _) => true
           | _ => false) = true ∧ truthyOpt (jsGet jsonData "presentationTitle") = true) then
      .error ⟨400, "Invalid JSON data structure"⟩
    else if ¬ designLibraryFound then .error ⟨404, "Design library not found"⟩
    else
      match storedKey with
      | none => .error ⟨400, "Groq API key not configured"⟩
      | some sk =>
          match dec sk with
          | none => .error ⟨400, "Invalid Groq API key"⟩
          | some k =>
              if k = "" then .error ⟨400, "Invalid Groq API key"⟩
              else if ¬ (strStartsWith k "gsk_") then
                .error ⟨400, "Invalid Groq API key format"⟩
              else .ok k

end GenerateHtml

namespace PromptTemplate

/-! Template resolution: both branches of callGroqAPI in the text-to-deck
endpoint substitute the caller input with
prompt.replace(placeholder, text) where the placeholder is the literal
string containing the word text in braces.  String.prototype.replace with
a string pattern replaces only the first occurrence, and expands
replacement patterns introduced by the dollar sign in the replacement text
(GetSubstitution, ECMA-262): a doubled dollar yields one dollar, dollar
ampersand the matched substring, dollar backquote the text before the
match, dollar quote the text after it; with a string pattern there are no
capture groups, so every other sequence stays literal. -/

/-- GetSubstitution for a string pattern: expand the replacement text given
the matched substring and the text before and after the match. -/
def getSubstitution (matched before after : List Char) : List Char → List Char
  | [] => []
  | '$' :: c :: rest =>
      if c = '$' then '$' :: getSubstitution matched before after rest
      else if c = '&' then matched ++ getSubstitution matched before after rest
      else if c = '`' then before ++ getSubstitution matched before after rest
      else if c = '\'' then after ++ getSubstitution matched before after rest
      else '$' :: getSubstitution matched before after (c :: rest)
  | c :: rest => c :: getSubstitution matched before after rest

/-- Index of the first occurrence of pat in hay (String.prototype.indexOf
restricted to what replace needs). -/
def firstIndexOf (hay pat : List Char) : Option Nat :=
  if pat.isPrefixOf hay then some 0
  else
    match hay with
    | [] => none
    | _ :: t => (firstIndexOf t pat).map (· + 1)

/-- String.prototype.replace with a string pattern and a string replacement:
replace the first occurrence of pat, expanding replacement patterns in rep;
return the string unchanged when pat does not occur. -/
def jsReplaceFirst (s pat rep : String) : String :=
  match firstIndexOf s.data pat.data with
  | none => s
  | some i =>
      let before := s.data.take i
      let after := s.data.drop (i + pat.data.length)
      String.mk (before ++ getSubstitution pat.data before after rep.data ++ after)

/-- The placeholder marking the substitution point in a template body. -/
def placeholder : String := "{text}"

/-- Template resolution: insert the caller input at the placeholder of the
template body (the stored prompt, or the embedded default). -/
def resolvePrompt (promptBody input : String) : String :=
  jsReplaceFirst promptBody placeholder input

end PromptTemplate

namespace ProposalView

/-! View tracking of the public share-link page
(pages/proposal/[shareableLink].tsx): every resolution of a stored
proposal increments the view counter once and appends one view-detail row,
with the geo-location lookup degrading to the string unknown on failure. -/

/-- One view-detail row: origin address, resolved location, timestamp
(Date is abstracted to a Nat tick). -/
structure ViewDetail where
  ip : String
  location : String
  timestamp : Nat
deriving DecidableEq, Repr

/-- The stored proposal document, as far as view tracking touches it. -/
structure Proposal where
  name : String
  html : String
  shareableLink : String
  views : Nat
  viewDetails : List ViewDetail
deriving DecidableEq, Repr

/-- Outcome of the best-effort geo-location fetch: a parsed success body,
a non-ok HTTP response, or a thrown fetch error (caught by the
surrounding try/catch). -/
inductive GeoLookup where
  | success (city region countryName : String)
  | httpError
  | failed
deriving DecidableEq, Repr

/-- The location string: the city/region/country template on success,
otherwise the initial value unknown survives. -/
def resolveLocation : GeoLookup → String
  | .success city region countryName => city ++ ", " ++ region ++ ", " ++ countryName
  | .httpError => "unknown"
  | .failed => "unknown"

/-- The tracking block of getServerSideProps for a found proposal:
increment views and push one view-detail row, then save. -/
def trackView (p : Proposal) (ip : String) (geo : GeoLookup) (now : Nat) : Proposal :=
  { p with
      views := p.views + 1
      viewDetails := p.viewDetails ++ [⟨ip, resolveLocation geo, now⟩] }

end ProposalView

/-! ## Credential encryption envelope (lib/utils.ts)

encrypt draws a fresh 16-byte IV, derives a key with
scryptSync(secret, salt, 32), runs AES-256-CBC, and stores
hex(iv) colon hex(ciphertext).  decrypt splits on the colon, parses the IV,
and tries the same derived key first, falling back to the legacy
createDecipher scheme only when the primary decipher throws.  The Node
crypto primitives are external: they enter as the fields of a CipherSuite,
and the round-trip theorem assumes of them exactly the inverse property
AES-CBC provides.  Bytes are Nats below 256.
-/

namespace CredentialCrypto

/-- Lowercase hex digits, as Buffer.toString with hex encoding emits. -/
def hexDigitChar (n : Nat) : Char := "0123456789abcdef".data.getD n '0'

def byteToHex (b : Nat) : List Char := [hexDigitChar (b / 16), hexDigitChar (b % 16)]

/-- Buffer.toString hex encoding of a byte sequence. -/
def bytesToHex (bs : List Nat) : String := String.mk (bs.flatMap byteToHex)

/-- Value of one hex digit character, None for a non-digit. -/
def hexCharVal (c : Char) : Option Nat :=
  if '0' ≤ c ∧ c ≤ '9' then some (c.toNat - '0'.toNat)
  else if 'a' ≤ c ∧ c ≤ 'f' then some (c.toNat - 'a'.toNat + 10)
  else if 'A' ≤ c ∧ c ≤ 'F' then some (c.toNat - 'A'.toNat + 10)
  else none

/-- Buffer.from with hex encoding: parse digit pairs, stopping at the first
invalid pair or odd trailing digit. -/
def hexToBytes : List Char → List Nat
  | c1 :: c2 :: rest =>
      match hexCharVal c1, hexCharVal c2 with
      | some h, some l => (16 * h + l) :: hexToBytes rest
      | _, _ => []
  | _ => []

/-- String.prototype.split on a single-character separator: the result is
never empty, and splitting text with no separator yields that text alone. -/
def jsSplitChar (sep : Char) : List Char → List (List Char)
  | [] => [[]]
  | c :: rest =>
      match jsSplitChar sep rest with
      | h :: t => if c = sep then [] :: h :: t else (c :: h) :: t
      | [] => [[c]]

/-- Array.prototype.join with a single-character separator. -/
def joinChar (sep : Char) (xs : List (List Char)) : List Char :=
  List.intercalate [sep] xs

/-- The external Node crypto primitives the envelope calls: the derived
scrypt key (deterministic in the fixed secret and salt), the AES-256-CBC
encryption of a utf8 plaintext to ciphertext bytes under key and IV, the
matching decryption (None when the final block check throws), and the
legacy createDecipher fallback. -/
structure CipherSuite where
  scryptKey : List Nat
  enc : List Nat → List Nat → String → List Nat
  dec : List Nat → List Nat → List Nat → Option String
  legacyDec : List Nat → Option String

/-- encrypt of lib/utils.ts, with the randomBytes(16) draw supplied as the
iv argument: hex(iv) colon hex(ciphertext). -/
def encrypt (cs : CipherSuite) (iv : List Nat) (text : String) : String :=
  bytesToHex iv ++ ":" ++ bytesToHex (cs.enc cs.scryptKey iv text)

/-- decrypt of lib/utils.ts: split on the colon, shift the IV part, rejoin
the rest, try the primary scheme, fall back to the legacy scheme, and fail
only when both throw. -/
def decrypt (cs : CipherSuite) (text : String) : Except String String :=
  let parts := jsSplitChar ':' text.data
  let iv := hexToBytes (parts.headD [])
  let encryptedText := joinChar ':' parts.tail
  match cs.dec cs.scryptKey iv (hexToBytes encryptedText) with
  | some s => .ok s
  | none =>
      match cs.legacyDec (hexToBytes encryptedText) with
      | some s => .ok s
      | none => .error "Failed to decrypt API key with both methods"

end CredentialCrypto

namespace Settings

/-! The credential settings endpoint (pages/api/settings.ts) and the
User model hooks (models/User.ts). -/

open CredentialCrypto

/-- getDecryptedApiKey of the User model: None for an absent key, the
decrypt result otherwise, with a decrypt failure caught to null. -/
def getDecryptedApiKey (cs : CipherSuite) (storedKey : Option String) : Option String :=
  match storedKey with
  | none => none
  | some s =>
      match decrypt cs s with
      | .ok k => some k
      | .error _ => none

end Settings

/-! ## Theorems -/

/-- C5: The claim states that template resolution inserts the literal caller
input with no corruption, so extracting the substituted region recovers the
input exactly.  String.prototype.replace expands replacement patterns in the
replacement text: for the template that is the placeholder between square
brackets and the caller input of two dollar signs, the resolved prompt is a
single dollar between brackets, so the substituted region reads one dollar,
not the original two.  The code deviates from the documented intent of
literal insertion. -/
theorem claim5_replace_expands_dollar_patterns :
    PromptTemplate.resolvePrompt "[{text}]" "$$" = "[$]" ∧
    ("[$]" : String) ≠ "[" ++ "$$" ++ "]" := by
  constructor
  · rfl
  · decide

/-- C6: Every resolution of a stored proposal's share token increments the
view counter by exactly one and appends exactly one view-detail row, so two
successive resolutions add exactly two of each, whatever the outcome of the
geo-location lookup on either call; a failed lookup degrades the location to
the string unknown while the tracking write still happens. -/
theorem claim6_view_tracking_counts :
    ∀ (p : ProposalView.Proposal) (ip1 ip2 : String)
      (g1 g2 : ProposalView.GeoLookup) (t1 t2 : Nat),
      (ProposalView.trackView p ip1 g1 t1).views = p.views + 1 ∧
      (ProposalView.trackView p ip1 g1 t1).viewDetails.length = p.viewDetails.length + 1 ∧
      (ProposalView.trackView (ProposalView.trackView p ip1 g1 t1) ip2 g2 t2).views =
        p.views + 2 ∧
      (ProposalView.trackView (ProposalView.trackView p ip1 g1 t1) ip2 g2 t2).viewDetails.length =
        p.viewDetails.length + 2 ∧
      ProposalView.resolveLocation .httpError = "unknown" ∧
      ProposalView.resolveLocation .failed = "unknown" ∧
      (ProposalView.trackView p ip1 g1 t1).viewDetails =
        p.viewDetails ++ [⟨ip1, ProposalView.resolveLocation g1, t1⟩] := by
  intro p ip1 ip2 g1 g2 t1 t2
  simp [ProposalView.trackView, ProposalView.resolveLocation]

/-- C8: The text-to-deck handler accepts a model selector only from the fixed
two-element allow-list; any other non-empty selector string is rejected with
the invalid-model error during the guard phase, before the credential is even
read, so no outbound call is made. -/
theorem claim8_model_allowlist :
    ∀ (body : Json) (storedKey : Option String) (dec : String → Option String)
      (t m : String),
      jsGet body "text" = some (Json.str t) → t ≠ "" →
      jsGet body "model" = some (Json.str m) → m ≠ "" →
      TextToJson.validModels.contains m = false →
      TextToJson.handlerPreCall body storedKey dec =
        .error ⟨400, "Invalid model selection"⟩ ∧
      outboundCalls (TextToJson.handlerPreCall body storedKey dec) = 0 ∧
      TextToJson.validModels = ["openai/gpt-oss-20b", "openai/gpt-oss-120b"] := by
  intro body storedKey dec t m ht ht0 hm hm0 hmem
  have h : TextToJson.handlerPreCall body storedKey dec =
      .error ⟨400, "Invalid model selection"⟩ := by
    simp [TextToJson.handlerPreCall, ht, hm, ht0, hm0, hmem]
    intro hc
    simp_all
  exact ⟨h, by simp [h, outboundCalls], rfl⟩

/-- Witness for C8 at the spec's end-to-end scenario: the made-up selector is
rejected with zero outbound calls. -/
theorem claim8_model_allowlist_witness :
    TextToJson.handlerPreCall
        (Json.obj [("text", Json.str "Our Q1 revenue grew 20%."),
                   ("model", Json.str "gpt-made-up")])
        (some "stored-ciphertext") (fun _ => some "gsk_key") =
      .error ⟨400, "Invalid model selection"⟩ ∧
    outboundCalls (TextToJson.handlerPreCall
        (Json.obj [("text", Json.str "Our Q1 revenue grew 20%."),
                   ("model", Json.str "gpt-made-up")])
        (some "stored-ciphertext") (fun _ => some "gsk_key")) = 0 := by
  have h := claim8_model_allowlist
    (Json.obj [("text", Json.str "Our Q1 revenue grew 20%."),
               ("model", Json.str "gpt-made-up")])
    (some "stored-ciphertext") (fun _ => some "gsk_key")
    "Our Q1 revenue grew 20%." "gpt-made-up"
    (by decide) (by decide) (by decide) (by decide) (by decide)
  exact ⟨h.1, h.2.1⟩

/-- Last-match lookup threads its accumulator: the tail decides, the
initial value is used only when the tail has no binding. -/
theorem lookupLast_some (key : String) :
    ∀ (gs : List (String × Json)) (v : Json),
      ∃ w, gs.foldl (fun acc p => if p.1 = key then some p.2 else acc) (some v) = some w := by
  intro gs
  induction gs with
  | nil => intro v; exact ⟨v, rfl⟩
  | cons hd tl ih =>
      intro v
      simp only [List.foldl_cons]
      by_cases hk : hd.1 = key
      · rw [if_pos hk]
        exact ih hd.2
      · rw [if_neg hk]
        exact ih v

theorem lookupLast_init (key : String) :
    ∀ (gs : List (String × Json)) (a : Option Json),
      gs.foldl (fun acc p => if p.1 = key then some p.2 else acc) a =
        match gs.foldl (fun acc p => if p.1 = key then some p.2 else acc) none with
        | some v => some v
        | none => a := by
  intro gs
  induction gs with
  | nil => intro a; rfl
  | cons hd tl ih =>
      intro a
      simp only [List.foldl_cons]
      by_cases hk : hd.1 = key
      · rw [if_pos hk, if_pos hk]
        obtain ⟨w, hw⟩ := lookupLast_some key tl hd.2
        rw [hw]
      · rw [if_neg hk, if_neg hk]
        exact ih a

/-- Lookup in an appended field list: the right-hand fields win. -/
theorem lookupLast_append (fs gs : List (String × Json)) (key : String) :
    lookupLast (fs ++ gs) key =
      match lookupLast gs key with
      | some v => some v
      | none => lookupLast fs key := by
  unfold lookupLast
  rw [List.foldl_append]
  exact lookupLast_init key gs _

/-- Reading the id of an enhanced slide object yields the original id when
truthy and the fresh token otherwise. -/
theorem TextToJson.jsGet_enhancedSlideObj_id (f : String) (s : Json) :
    jsGet (TextToJson.enhancedSlideObj f s) "id" =
      some (jsOr (jsGetD s "id") (Json.str f)) := by
  simp [TextToJson.enhancedSlideObj, jsGet, lookupLast_append, lookupLast]

/-- Reading the type of an enhanced slide object yields the original type
when truthy and the content default otherwise. -/
theorem TextToJson.jsGet_enhancedSlideObj_type (f : String) (s : Json) :
    jsGet (TextToJson.enhancedSlideObj f s) "type" =
      some (jsOr (jsGetD s "type") (Json.str "content")) := by
  simp [TextToJson.enhancedSlideObj, jsGet, lookupLast_append, lookupLast]

/-- A value defaulted through logical-or with a non-empty string literal is
truthy. -/
theorem truthy_jsOr_str (a : Json) (f : String) (hf : f ≠ "") :
    (jsOr a (Json.str f)).truthy = true := by
  unfold jsOr
  split
  · assumption
  · simp [Json.truthy, hf]

/-- A non-null slide entry enhances to its object literal without
throwing. -/
theorem TextToJson.enhanceSlide_of_ne_null (f : String) (s : Json)
    (h : s ≠ Json.null) :
    TextToJson.enhanceSlide f s = some (TextToJson.enhancedSlideObj f s) := by
  cases s with
  | null => exact absurd rfl h
  | bool b => rfl
  | num n => rfl
  | str t => rfl
  | arr elems => rfl
  | obj fields => rfl

/-- When no slide entry is null, the enhancement map succeeds, preserves
the count, and acts index-wise in input order. -/
theorem TextToJson.enhancedSlides_some (fresh : Nat → String) :
    ∀ (xs : List Json) (i : Nat), (∀ s ∈ xs, s ≠ Json.null) →
      ∃ ys, TextToJson.enhancedSlides fresh i xs = some ys ∧
        ys.length = xs.length ∧
        ∀ j, j < xs.length →
          ys.getD j Json.null =
            TextToJson.enhancedSlideObj (fresh (i + j)) (xs.getD j Json.null) := by
  intro xs
  induction xs with
  | nil => intro i h; exact ⟨[], rfl, rfl, fun j hj => absurd hj (by simp)⟩
  | cons s rest ih =>
      intro i h
      have hs : s ≠ Json.null := h s (by simp)
      have hrest : ∀ x ∈ rest, x ≠ Json.null := fun x hx => h x (by simp [hx])
      obtain ⟨ys, hys, hlen, hidx⟩ := ih (i + 1) hrest
      refine ⟨TextToJson.enhancedSlideObj (fresh i) s :: ys, ?_, by simp [hlen], ?_⟩
      · simp [TextToJson.enhancedSlides,
          TextToJson.enhanceSlide_of_ne_null (fresh i) s hs, hys]
      · intro j hj
        cases j with
        | zero => simp
        | succ j =>
            have hj' : j < rest.length := by simpa using hj
            have harith : i + 1 + j = i + (j + 1) := by omega
            simpa [harith] using hidx j hj'

/-- C1 counterexample: the claim asserts the normalizer returns a result
with exactly N slides for every completion whose slides field is an array
of N entries.  A null slide entry makes the enhancement map throw a
TypeError, which the catch re-wraps: the one-entry array of a null slide is
rejected with the generic error, not normalized into a one-slide result. -/
theorem claim1_counterexample_null_slide_rejected :
    TextToJson.normalizeResponse (fun _ => "generated-id")
        (Json.obj [("slides", Json.arr [Json.null])]) =
      .error "Invalid JSON response from AI model" := by
  rfl

/-- C1 amended: for a parsed deck-shape completion whose slides field is an
array of N entries none of which is null, the normalizer succeeds and
returns exactly N slides in input order, each the enhanced object of the
corresponding input entry: its id is the original one when truthy and
otherwise the freshly drawn token, its type is the original one when truthy
and otherwise the content default, the id is always truthy (non-empty for
string ids), and the returned totalSlides is N however the completion's own
totalSlides field reads.  A null entry instead raises a TypeError that the
catch converts into the generic parse error. -/
theorem claim1_deck_normalizer (fresh : Nat → String) (j : Json) (xs : List Json)
    (hslides : jsGet j "slides" = some (Json.arr xs))
    (hnn : ∀ s ∈ xs, s ≠ Json.null)
    (hfresh : ∀ i, fresh i ≠ "") :
    (TextToJson.normalizeResponse fresh j).isOk = true ∧
    TextToJson.deckTotal (TextToJson.normalizeResponse fresh j) = xs.length ∧
    (TextToJson.deckSlides (TextToJson.normalizeResponse fresh j)).length = xs.length ∧
    ∀ i, i < xs.length →
      (TextToJson.deckSlides (TextToJson.normalizeResponse fresh j)).getD i Json.null =
        TextToJson.enhancedSlideObj (fresh i) (xs.getD i Json.null) ∧
      jsGet ((TextToJson.deckSlides (TextToJson.normalizeResponse fresh j)).getD i Json.null)
          "id" =
        some (jsOr (jsGetD (xs.getD i Json.null) "id") (Json.str (fresh i))) ∧
      jsGet ((TextToJson.deckSlides (TextToJson.normalizeResponse fresh j)).getD i Json.null)
          "type" =
        some (jsOr (jsGetD (xs.getD i Json.null) "type") (Json.str "content")) ∧
      (jsGetD ((TextToJson.deckSlides (TextToJson.normalizeResponse fresh j)).getD i Json.null)
          "id").truthy = true := by
  obtain ⟨ys, hys, hlen, hidx⟩ := TextToJson.enhancedSlides_some fresh xs 0 hnn
  have hnorm : TextToJson.normalizeResponse fresh j =
      .ok { presentationTitle :=
              jsOr (jsGetD j "presentationTitle") (Json.str "Generated Presentation")
            totalSlides := ys.length
            slides := ys } := by
    simp [TextToJson.normalizeResponse, TextToJson.validateResponse, hslides, hys]
  refine ⟨by rw [hnorm]; rfl, ?_, ?_, ?_⟩
  · simp [hnorm, TextToJson.deckTotal, hlen]
  · simp [hnorm, TextToJson.deckSlides, hlen]
  · intro i hi
    have hslot : (TextToJson.deckSlides (TextToJson.normalizeResponse fresh j)).getD i Json.null =
        TextToJson.enhancedSlideObj (fresh i) (xs.getD i Json.null) := by
      rw [hnorm]
      simpa using hidx i hi
    refine ⟨hslot, ?_, ?_, ?_⟩
    · rw [hslot, TextToJson.jsGet_enhancedSlideObj_id]
    · rw [hslot, TextToJson.jsGet_enhancedSlideObj_type]
    · rw [hslot]
      unfold jsGetD
      rw [TextToJson.jsGet_enhancedSlideObj_id]
      exact truthy_jsOr_str _ _ (hfresh i)

/-- Witness for C1 at the spec's end-to-end deck scenario, with a conflicting
totalSlides field of 99 in the completion: the normalizer reports 2 slides
and the first slide, which came without an id, carries the fresh token. -/
theorem claim1_deck_normalizer_witness :
    (TextToJson.normalizeResponse (fun _ => "generated-id")
        (Json.obj [("presentationTitle", Json.str "Q1 Update"),
                   ("totalSlides", Json.num 99),
                   ("slides", Json.arr
                     [Json.obj [("title", Json.str "Revenue"),
                                ("content", Json.str "Grew 20%"),
                                ("type", Json.str "content")],
                      Json.obj [("id", Json.str "s2"),
                                ("title", Json.str "Hiring")]])])).isOk = true ∧
    TextToJson.deckTotal (TextToJson.normalizeResponse (fun _ => "generated-id")
        (Json.obj [("presentationTitle", Json.str "Q1 Update"),
                   ("totalSlides", Json.num 99),
                   ("slides", Json.arr
                     [Json.obj [("title", Json.str "Revenue"),
                                ("content", Json.str "Grew 20%"),
                                ("type", Json.str "content")],
                      Json.obj [("id", Json.str "s2"),
                                ("title", Json.str "Hiring")]])])) = 2 := by
  have h := claim1_deck_normalizer (fun _ => "generated-id")
    (Json.obj [("presentationTitle", Json.str "Q1 Update"),
               ("totalSlides", Json.num 99),
               ("slides", Json.arr
                 [Json.obj [("title", Json.str "Revenue"),
                            ("content", Json.str "Grew 20%"),
                            ("type", Json.str "content")],
                  Json.obj [("id", Json.str "s2"),
                            ("title", Json.str "Hiring")]])])
    [Json.obj [("title", Json.str "Revenue"),
               ("content", Json.str "Grew 20%"),
               ("type", Json.str "content")],
     Json.obj [("id", Json.str "s2"),
               ("title", Json.str "Hiring")]]
    (by decide) (by decide) (fun i => (by decide : ("generated-id" : String) ≠ ""))
  exact ⟨h.1, h.2.1⟩

/-- C4 counterexample: the claim states the deck validator also requires a
title field and rejects a completion without one.  In the code the only
schema requirement is the slides array: a parsed completion with slides but
no presentationTitle is normalized successfully, the missing title replaced
by the default, not rejected. -/
theorem claim4_counterexample_missing_title_accepted :
    TextToJson.normalizeResponse (fun _ => "generated-id")
        (Json.obj [("slides", Json.arr [])]) =
      .ok ⟨Json.str "Generated Presentation", 0, []⟩ := by
  rfl

/-- C4 amended: the deck validator requires only that the slides field be an
array; any completion failing that is rejected (with the schema throw
re-wrapped by the surrounding catch into the generic invalid-JSON message),
while a completion with a slides array free of null entries but no title
field is normalized successfully with the default title instead of being
rejected (a null entry fails for the unrelated TypeError reason, not for
the missing title). -/
theorem claim4_deck_validator_requires_slides_only :
    (∀ (fresh : Nat → String) (j : Json),
      (∀ xs : List Json, jsGet j "slides" ≠ some (Json.arr xs)) →
      TextToJson.normalizeResponse fresh j =
        .error "Invalid JSON response from AI model") ∧
    (∀ (fresh : Nat → String) (j : Json) (xs : List Json),
      jsGet j "slides" = some (Json.arr xs) →
      (∀ s ∈ xs, s ≠ Json.null) →
      jsGet j "presentationTitle" = none →
      (TextToJson.normalizeResponse fresh j).isOk = true ∧
      TextToJson.deckTitle (TextToJson.normalizeResponse fresh j) =
        Json.str "Generated Presentation") := by
  constructor
  · intro fresh j hno
    unfold TextToJson.normalizeResponse TextToJson.validateResponse
    cases hs : jsGet j "slides" with
    | none => rfl
    | some v =>
        cases v with
        | arr xs => exact absurd hs (hno xs)
        | null => rfl
        | bool b => rfl
        | num n => rfl
        | str s => rfl
        | obj fields => rfl
  · intro fresh j xs hs hnn ht
    obtain ⟨ys, hys, hlen, hidx⟩ := TextToJson.enhancedSlides_some fresh xs 0 hnn
    have hnorm : TextToJson.normalizeResponse fresh j =
        .ok { presentationTitle :=
                jsOr (jsGetD j "presentationTitle") (Json.str "Generated Presentation")
              totalSlides := ys.length
              slides := ys } := by
      simp [TextToJson.normalizeResponse, TextToJson.validateResponse, hs, hys]
    refine ⟨by rw [hnorm]; rfl, ?_⟩
    rw [hnorm]
    simp [TextToJson.deckTitle, jsGetD, ht, jsOr, Json.truthy]

/-- Witness for C4 amended: a completion whose slides field is a string is
rejected with the generic message, and one with an empty slides array and no
title is normalized with the default title. -/
theorem claim4_deck_validator_requires_slides_only_witness :
    TextToJson.normalizeResponse (fun _ => "generated-id")
        (Json.obj [("slides", Json.str "not-an-array")]) =
      .error "Invalid JSON response from AI model" ∧
    TextToJson.deckTitle (TextToJson.normalizeResponse (fun _ => "generated-id")
        (Json.obj [("slides", Json.arr [])])) =
      Json.str "Generated Presentation" := by
  have h := claim4_deck_validator_requires_slides_only
  exact ⟨h.1 (fun _ => "generated-id") (Json.obj [("slides", Json.str "not-an-array")])
           (fun xs hx => by simp [jsGet, lookupLast] at hx),
         (h.2 (fun _ => "generated-id") (Json.obj [("slides", Json.arr [])]) []
           (by decide) (by decide) (by decide)).2⟩

/-- C2 counterexample: the claim states any non-string analysis value is
coerced to serialized text and that the two known shapes normalize
identically on semantically equivalent content.  For an object-valued
analysis the css+implementationNote branch stringifies it but the
cssVariables+analysisResult branch passes the object through untouched, so
the same content in the two shapes yields different canonical pairs, and
the second pair's analysis field is not a string at all. -/
theorem claim2_counterexample_shapes_disagree :
    DesignLibrary.normalizeContent
        (Json.obj [("css", Json.str ":root\x7b--c:#fff;\x7d"),
                   ("implementationNote", Json.obj [("approach", Json.str "grid")])]) =
      .ok ⟨Json.str ":root\x7b--c:#fff;\x7d",
           Json.str "\x7b\n  \"approach\": \"grid\"\n\x7d"⟩ ∧
    DesignLibrary.normalizeContent
        (Json.obj [("cssVariables", Json.str ":root\x7b--c:#fff;\x7d"),
                   ("analysisResult", Json.obj [("approach", Json.str "grid")])]) =
      .ok ⟨Json.str ":root\x7b--c:#fff;\x7d",
           Json.obj [("approach", Json.str "grid")]⟩ ∧
    (Json.obj [("approach", Json.str "grid")]).isString = false ∧
    (⟨Json.str ":root\x7b--c:#fff;\x7d",
      Json.str "\x7b\n  \"approach\": \"grid\"\n\x7d"⟩ : DesignLibrary.TokensResult) ≠
      ⟨Json.str ":root\x7b--c:#fff;\x7d", Json.obj [("approach", Json.str "grid")]⟩ := by
  refine ⟨rfl, rfl, rfl, by decide⟩

/-- C2 amended: the normalizer recognizes both known field-name pairs and,
for string-valued content, reshapes either into the same canonical pair; in
the css+implementationNote shape an object-typed note is coerced to its
two-space pretty-printed JSON text, while a non-string primitive note (and
any analysis value arriving through the canonical shape) is passed through
unchanged, so the two shapes agree exactly on string-valued content. -/
theorem claim2_design_tokens_normalizer :
    (∀ C A : String, C ≠ "" → A ≠ "" →
      DesignLibrary.normalizeContent
          (Json.obj [("css", Json.str C), ("implementationNote", Json.str A)]) =
        .ok ⟨Json.str C, Json.str A⟩ ∧
      DesignLibrary.normalizeContent
          (Json.obj [("cssVariables", Json.str C), ("analysisResult", Json.str A)]) =
        .ok ⟨Json.str C, Json.str A⟩) ∧
    (∀ (C : String) (fs : List (String × Json)), C ≠ "" →
      DesignLibrary.normalizeContent
          (Json.obj [("css", Json.str C), ("implementationNote", Json.obj fs)]) =
        .ok ⟨Json.str C, Json.str (jsonStringify2 (Json.obj fs))⟩) ∧
    (∀ (C : String) (n : Int), C ≠ "" → n ≠ 0 →
      DesignLibrary.normalizeContent
          (Json.obj [("css", Json.str C), ("implementationNote", Json.num n)]) =
        .ok ⟨Json.str C, Json.num n⟩) := by
  refine ⟨?_, ?_, ?_⟩
  · intro C A hC hA
    have tC : (C != "") = true := bne_iff_ne.mpr hC
    have tA : (A != "") = true := bne_iff_ne.mpr hA
    constructor
    · simp [DesignLibrary.normalizeContent, DesignLibrary.normalizeContentCore,
        jsGet, jsGetD, lookupLast, truthyOpt, Json.truthy, Json.typeofObject, tC, tA]
    · simp [DesignLibrary.normalizeContent, DesignLibrary.normalizeContentCore,
        jsGet, jsGetD, lookupLast, truthyOpt, Json.truthy, Json.typeofObject, tC, tA]
  · intro C fs hC
    have tC : (C != "") = true := bne_iff_ne.mpr hC
    simp [DesignLibrary.normalizeContent, DesignLibrary.normalizeContentCore,
      jsGet, jsGetD, lookupLast, truthyOpt, Json.truthy, Json.typeofObject, tC,
      jsonStringify2]
  · intro C n hC hn
    have tC : (C != "") = true := bne_iff_ne.mpr hC
    have tn : (n != 0) = true := bne_iff_ne.mpr hn
    simp [DesignLibrary.normalizeContent, DesignLibrary.normalizeContentCore,
      jsGet, jsGetD, lookupLast, truthyOpt, Json.truthy, Json.typeofObject, tC, tn]

/-- Witness for C2 amended at the spec's end-to-end token scenario: both
string shapes give the same pair, the object-typed note is pretty-printed,
and a numeric note passes through as the number. -/
theorem claim2_design_tokens_normalizer_witness :
    DesignLibrary.normalizeContent
        (Json.obj [("css", Json.str ":root\x7b--c:#000;\x7d"),
                   ("implementationNote", Json.str "uses a grid")]) =
      .ok ⟨Json.str ":root\x7b--c:#000;\x7d", Json.str "uses a grid"⟩ ∧
    DesignLibrary.normalizeContent
        (Json.obj [("cssVariables", Json.str ":root\x7b--c:#000;\x7d"),
                   ("analysisResult", Json.str "uses a grid")]) =
      .ok ⟨Json.str ":root\x7b--c:#000;\x7d", Json.str "uses a grid"⟩ ∧
    DesignLibrary.normalizeContent
        (Json.obj [("css", Json.str ":root\x7b--c:#000;\x7d"),
                   ("implementationNote", Json.obj [("approach", Json.str "flex")])]) =
      .ok ⟨Json.str ":root\x7b--c:#000;\x7d",
           Json.str "\x7b\n  \"approach\": \"flex\"\n\x7d"⟩ ∧
    DesignLibrary.normalizeContent
        (Json.obj [("css", Json.str ":root\x7b--c:#000;\x7d"),
                   ("implementationNote", Json.num 42)]) =
      .ok ⟨Json.str ":root\x7b--c:#000;\x7d", Json.num 42⟩ := by
  have h := claim2_design_tokens_normalizer
  have hstr := h.1 ":root\x7b--c:#000;\x7d" "uses a grid" (by decide) (by decide)
  refine ⟨hstr.1, hstr.2, ?_, h.2.2 ":root\x7b--c:#000;\x7d" 42 (by decide) (by decide)⟩
  exact (h.2.1 ":root\x7b--c:#000;\x7d" [("approach", Json.str "flex")] (by decide)).trans rfl

/-- C3 counterexample: the claim states every pipeline that reaches the
model invoker rejects a resolved credential lacking the gsk underscore
prefix before any outbound request.  The text-to-deck handler performs no
such format check: with valid text and an allow-listed model, a resolved
credential with the wrong prefix flows straight into the model call, so the
outbound call count is one, not zero. -/
theorem claim3_counterexample_text_to_deck_skips_prefix_check :
    TextToJson.handlerPreCall
        (Json.obj [("text", Json.str "Our Q1 revenue grew 20%."),
                   ("model", Json.str "openai/gpt-oss-20b")])
        (some "stored-ciphertext") (fun _ => some "sk-wrong-prefix") =
      .ok "sk-wrong-prefix" ∧
    strStartsWith "sk-wrong-prefix" "gsk_" = false ∧
    outboundCalls (TextToJson.handlerPreCall
        (Json.obj [("text", Json.str "Our Q1 revenue grew 20%."),
                   ("model", Json.str "openai/gpt-oss-20b")])
        (some "stored-ciphertext") (fun _ => some "sk-wrong-prefix")) = 1 := by
  refine ⟨rfl, by decide, rfl⟩

/-- C3 amended: of the three model-invoking pipelines, the design-tokens and
HTML-generation handlers reject a resolved credential that does not start
with the gsk underscore prefix with the invalid-format error before any
outbound call, while the text-to-deck handler performs no prefix check and
proceeds to the model call with such a credential, issuing its one outbound
request. -/
theorem claim3_prefix_check_coverage :
    (∀ (body : Json) (sp : SystemPromptRec) (sk k : String) (dec : String → Option String),
      truthyOpt (jsGet body "name") = true →
      truthyOpt (jsGet body "description") = true →
      truthyOpt (jsGet body "imageBase64") = true →
      truthyOpt (jsGet body "systemPromptId") = true →
      sp.isActive = true →
      dec sk = some k → k ≠ "" → strStartsWith k "gsk_" = false →
      DesignLibrary.handlerPreCall body (some sp) (some sk) dec =
        .error ⟨400, "Invalid Groq API key format"⟩ ∧
      outboundCalls (DesignLibrary.handlerPreCall body (some sp) (some sk) dec) = 0) ∧
    (∀ (body : Json) (xs : List Json) (sk k : String) (dec : String → Option String),
      truthyOpt (jsGet body "jsonData") = true →
      truthyOpt (jsGet body "designLibraryId") = true →
      jsGet (jsGetD body "jsonData") "slides" = some (Json.arr xs) →
      truthyOpt (jsGet (jsGetD body "jsonData") "presentationTitle") = true →
      dec sk = some k → k ≠ "" → strStartsWith k "gsk_" = false →
      GenerateHtml.handlerPreCall body true (some sk) dec =
        .error ⟨400, "Invalid Groq API key format"⟩ ∧
      outboundCalls (GenerateHtml.handlerPreCall body true (some sk) dec) = 0) ∧
    (∀ (body : Json) (t m sk k : String) (dec : String → Option String),
      jsGet body "text" = some (Json.str t) → t ≠ "" →
      jsGet body "model" = some (Json.str m) →
      TextToJson.validModels.contains m = true →
      dec sk = some k → k ≠ "" → strStartsWith k "gsk_" = false →
      TextToJson.handlerPreCall body (some sk) dec = .ok k ∧
      outboundCalls (TextToJson.handlerPreCall body (some sk) dec) = 1) := by
  refine ⟨?_, ?_, ?_⟩
  · intro body sp sk k dec h1 h2 h3 h4 hact hdec hk hpre
    have h : DesignLibrary.handlerPreCall body (some sp) (some sk) dec =
        .error ⟨400, "Invalid Groq API key format"⟩ := by
      simp [DesignLibrary.handlerPreCall, h1, h2, h3, h4, hact, hdec, hk, hpre]
    exact ⟨h, by simp [h, outboundCalls]⟩
  · intro body xs sk k dec h1 h2 h3 h4 hdec hk hpre
    have h : GenerateHtml.handlerPreCall body true (some sk) dec =
        .error ⟨400, "Invalid Groq API key format"⟩ := by
      simp [GenerateHtml.handlerPreCall, h1, h2, h3, h4, hdec, hk, hpre]
    exact ⟨h, by simp [h, outboundCalls]⟩
  · intro body t m sk k dec ht ht0 hm hmem hdec hk hpre
    have hm0 : m ≠ "" := by
      intro h
      rw [h] at hmem
      simp [TextToJson.validModels] at hmem
    have hmm : m ∈ TextToJson.validModels := by simpa using hmem
    have h : TextToJson.handlerPreCall body (some sk) dec = .ok k := by
      simp [TextToJson.handlerPreCall, ht, hm, ht0, hm0, hmm, hdec, hk]
    exact ⟨h, by simp [h, outboundCalls]⟩

/-- Witness for C3 amended: a concrete non-gsk credential is rejected by the
design-tokens and HTML handlers with zero calls and accepted into the model
call by the text-to-deck handler. -/
theorem claim3_prefix_check_coverage_witness :
    DesignLibrary.handlerPreCall
        (Json.obj [("name", Json.str "brand"), ("description", Json.str "site shot"),
                   ("imageBase64", Json.str "dGVzdA=="), ("systemPromptId", Json.str "p1")])
        (some ⟨"extract tokens", true⟩) (some "stored-ciphertext")
        (fun _ => some "sk-wrong-prefix") =
      .error ⟨400, "Invalid Groq API key format"⟩ ∧
    GenerateHtml.handlerPreCall
        (Json.obj [("jsonData", Json.obj [("presentationTitle", Json.str "Q1"),
                                          ("slides", Json.arr [])]),
                   ("designLibraryId", Json.str "d1")])
        true (some "stored-ciphertext") (fun _ => some "sk-wrong-prefix") =
      .error ⟨400, "Invalid Groq API key format"⟩ ∧
    TextToJson.handlerPreCall
        (Json.obj [("text", Json.str "hello world"),
                   ("model", Json.str "openai/gpt-oss-120b")])
        (some "stored-ciphertext") (fun _ => some "sk-wrong-prefix") =
      .ok "sk-wrong-prefix" := by
  have h := claim3_prefix_check_coverage
  refine ⟨(h.1 _ ⟨"extract tokens", true⟩ "stored-ciphertext" "sk-wrong-prefix" _
            (by decide) (by decide) (by decide) (by decide) rfl rfl
            (by decide) (by decide)).1,
          (h.2.1 _ [] "stored-ciphertext" "sk-wrong-prefix" _
            (by decide) (by decide) (by decide) (by decide) rfl
            (by decide) (by decide)).1,
          (h.2.2 _ "hello world" "openai/gpt-oss-120b" "stored-ciphertext" "sk-wrong-prefix" _
            (by decide) (by decide) (by decide) (by decide) rfl
            (by decide) (by decide)).1⟩

/-- C7 counterexample: the claim states every request whose base64 image
text exceeds 4 MiB is rejected.  The handler bounds the estimated decoded
byte count, not the text length: a base64 text one character over 4 MiB
decodes to about 3 MB, so the size check passes it. -/
theorem claim7_counterexample_over_4mib_text_passes :
    DesignLibrary.imageTooLarge 4194305 = false ∧
    4 * 1024 * 1024 < 4194305 ∧
    DesignLibrary.imageSizeInBytes 4194305 = 3145729 := by
  refine ⟨by decide, by decide, by decide⟩

/-- C7 amended: the endpoint's ceiling applies to the estimated decoded
size: the check rejects exactly when ceil(3L/4) exceeds 4 MiB, that is when
the base64 text length L is at least 5592406; in particular every text of
at most 4 MiB (indeed up to 5592405 characters) passes the size check, and
the handler reaches the model call only when the size check passed. -/
theorem claim7_image_size_ceiling :
    (∀ L, DesignLibrary.imageTooLarge L = true ↔ 4 * (4 * 1024 * 1024) < 3 * L) ∧
    (∀ L, DesignLibrary.imageTooLarge L = true ↔ 5592406 ≤ L) ∧
    (∀ L, L ≤ 4 * 1024 * 1024 → DesignLibrary.imageTooLarge L = false) ∧
    (∀ (body : Json) (pl : Option SystemPromptRec) (sk : Option String)
       (dec : String → Option String) (k : String) (L : Nat),
      DesignLibrary.jsImageLen (jsGetD body "imageBase64") = some L →
      DesignLibrary.handlerPreCall body pl sk dec = .ok k →
      DesignLibrary.imageTooLarge L = false) := by
  refine ⟨?_, ?_, ?_, ?_⟩
  · intro L
    simp [DesignLibrary.imageTooLarge, DesignLibrary.imageSizeInBytes]
    omega
  · intro L
    simp [DesignLibrary.imageTooLarge, DesignLibrary.imageSizeInBytes]
    omega
  · intro L hL
    simp [DesignLibrary.imageTooLarge, DesignLibrary.imageSizeInBytes]
    omega
  · intro body pl sk dec k L hlen hok
    by_contra hbig
    rw [Bool.not_eq_false] at hbig
    simp [DesignLibrary.handlerPreCall, hlen, hbig] at hok
    repeat' split at hok
    all_goals simp_all

set_option maxRecDepth 8000 in
/-- Witness for C7 amended: the boundary lengths of the size check, and a
successful pre-call run whose image length the check admits. -/
theorem claim7_image_size_ceiling_witness :
    DesignLibrary.imageTooLarge 5592406 = true ∧
    DesignLibrary.imageTooLarge 5592405 = false ∧
    DesignLibrary.imageTooLarge (4 * 1024 * 1024) = false ∧
    DesignLibrary.imageTooLarge 120 = false := by
  have h := claim7_image_size_ceiling
  refine ⟨(h.2.1 5592406).mpr (by decide), ?_, h.2.2.1 (4 * 1024 * 1024) (by decide), ?_⟩
  · rcases hx : DesignLibrary.imageTooLarge 5592405 with _ | _
    · rfl
    · exact absurd ((h.2.1 5592405).mp hx) (by decide)
  · exact h.2.2.2
      (Json.obj [("name", Json.str "brand"), ("description", Json.str "shot"),
                 ("imageBase64", Json.str "AAAAAAAAAAAAAAAAAAAAAAAAAAAAAAAAAAAAAAAAAAAAAAAAAAAAAAAAAAAAAAAAAAAAAAAAAAAAAAAAAAAAAAAAAAAAAAAAAAAAAAAAAAAAAAAAAAAAAAAA"),
                 ("systemPromptId", Json.str "p1")])
      (some ⟨"extract tokens", true⟩) (some "stored-ciphertext")
      (fun _ => some "gsk_key") "gsk_key" 120 (by decide) rfl

/-- A hex digit character is never the colon separator. -/
theorem hexDigitChar_ne_colon (n : Nat) : CredentialCrypto.hexDigitChar n ≠ ':' := by
  unfold CredentialCrypto.hexDigitChar
  by_cases h : n < 16
  · interval_cases n <;> decide
  · rw [List.getD_eq_default]
    · decide
    · have hlen : ("0123456789abcdef".data).length = 16 := by decide
      omega

/-- Parsing inverts printing on one hex digit below sixteen. -/
theorem hexCharVal_hexDigitChar (n : Nat) (h : n < 16) :
    CredentialCrypto.hexCharVal (CredentialCrypto.hexDigitChar n) = some n := by
  interval_cases n <;> decide

/-- No character of a hex-printed byte is the colon separator. -/
theorem mem_byteToHex_ne_colon (b : Nat) :
    ∀ c ∈ CredentialCrypto.byteToHex b, c ≠ ':' := by
  intro c hc
  simp [CredentialCrypto.byteToHex] at hc
  rcases hc with h | h <;> subst h <;> exact hexDigitChar_ne_colon _

/-- No character of a hex-printed byte sequence is the colon separator. -/
theorem flatMap_byteToHex_no_colon (bs : List Nat) :
    ':' ∉ bs.flatMap CredentialCrypto.byteToHex := by
  intro h
  rw [List.mem_flatMap] at h
  obtain ⟨b, hb, hc⟩ := h
  exact mem_byteToHex_ne_colon b ':' hc rfl

/-- Hex parsing inverts hex printing on byte sequences. -/
theorem hexToBytes_flatMap (bs : List Nat) (h : ∀ b ∈ bs, b < 256) :
    CredentialCrypto.hexToBytes (bs.flatMap CredentialCrypto.byteToHex) = bs := by
  induction bs with
  | nil => rfl
  | cons b rest ih =>
      have hb : b < 256 := h b (by simp)
      have hdiv : b / 16 < 16 := by omega
      have hmod : b % 16 < 16 := by omega
      have hrest : ∀ x ∈ rest, x < 256 := fun x hx => h x (List.mem_cons_of_mem _ hx)
      simp only [List.flatMap_cons, CredentialCrypto.byteToHex, List.cons_append,
        List.nil_append, CredentialCrypto.hexToBytes,
        hexCharVal_hexDigitChar _ hdiv, hexCharVal_hexDigitChar _ hmod]
      show (16 * (b / 16) + b % 16) ::
          CredentialCrypto.hexToBytes (rest.flatMap CredentialCrypto.byteToHex) = b :: rest
      rw [ih hrest]
      congr 1
      omega

/-- The split of a character list is never the empty list of parts. -/
theorem jsSplitChar_ne_nil (sep : Char) (l : List Char) :
    CredentialCrypto.jsSplitChar sep l ≠ [] := by
  cases l with
  | nil => simp [CredentialCrypto.jsSplitChar]
  | cons c rest =>
      simp only [CredentialCrypto.jsSplitChar]
      cases h : CredentialCrypto.jsSplitChar sep rest with
      | nil => simp
      | cons hd tl => by_cases hc : c = sep <;> simp [hc]

/-- Splitting text free of the separator yields that text as the only
part. -/
theorem jsSplitChar_no_sep (sep : Char) (l : List Char) (h : sep ∉ l) :
    CredentialCrypto.jsSplitChar sep l = [l] := by
  induction l with
  | nil => rfl
  | cons c rest ih =>
      have hc : c ≠ sep := by rintro rfl; exact h (by simp)
      have hrest : sep ∉ rest := fun hx => h (by simp [hx])
      simp only [CredentialCrypto.jsSplitChar, ih hrest]
      simp [hc]

/-- Splitting at the first separator occurrence detaches the prefix. -/
theorem jsSplitChar_append (sep : Char) (a b : List Char) (ha : sep ∉ a) :
    CredentialCrypto.jsSplitChar sep (a ++ sep :: b) =
      a :: CredentialCrypto.jsSplitChar sep b := by
  induction a with
  | nil =>
      simp only [List.nil_append, CredentialCrypto.jsSplitChar]
      cases h : CredentialCrypto.jsSplitChar sep b with
      | nil => exact absurd h (jsSplitChar_ne_nil sep b)
      | cons hd tl => simp
  | cons c a ih =>
      have hc : c ≠ sep := by rintro rfl; exact ha (by simp)
      have ha' : sep ∉ a := fun hx => ha (by simp [hx])
      simp only [List.cons_append, CredentialCrypto.jsSplitChar]
      rw [show a.append (sep :: b) = a ++ sep :: b from rfl, ih ha']
      simp [hc]

/-- Joining a single part is that part. -/
theorem joinChar_single (sep : Char) (x : List Char) :
    CredentialCrypto.joinChar sep [x] = x := by
  simp [CredentialCrypto.joinChar, List.intercalate]

/-- C10: For every plaintext and every 16-byte IV (any byte sequence of
valid bytes), decrypting the stored envelope recovers the plaintext through
the primary strategy alone: the conclusion holds with the legacy decoder
replaced by an arbitrary function, so the fallback is never consulted.  The
cipher hypotheses are the inverse property AES-256-CBC provides under the
shared scrypt-derived key, stated at the inputs in question. -/
theorem claim10_encrypt_decrypt_roundtrip
    (cs : CredentialCrypto.CipherSuite) (iv : List Nat) (s : String)
    (lg : List Nat → Option String)
    (hiv : ∀ b ∈ iv, b < 256)
    (hct : ∀ b ∈ cs.enc cs.scryptKey iv s, b < 256)
    (hdec : cs.dec cs.scryptKey iv (cs.enc cs.scryptKey iv s) = some s) :
    CredentialCrypto.decrypt ⟨cs.scryptKey, cs.enc, cs.dec, lg⟩
        (CredentialCrypto.encrypt cs iv s) = .ok s := by
  unfold CredentialCrypto.decrypt CredentialCrypto.encrypt
  have hdata : (CredentialCrypto.bytesToHex iv ++ ":" ++
      CredentialCrypto.bytesToHex (cs.enc cs.scryptKey iv s)).data =
      (iv.flatMap CredentialCrypto.byteToHex) ++ ':' ::
        ((cs.enc cs.scryptKey iv s).flatMap CredentialCrypto.byteToHex) := by
    simp [CredentialCrypto.bytesToHex, String.data_append]
  rw [hdata, jsSplitChar_append _ _ _ (flatMap_byteToHex_no_colon iv),
      jsSplitChar_no_sep _ _ (flatMap_byteToHex_no_colon _)]
  simp only [List.headD_cons, List.tail_cons, joinChar_single,
    hexToBytes_flatMap iv hiv, hexToBytes_flatMap _ hct]
  rw [hdec]

/-- Witness for C10 at a concrete cipher suite (byte-codes of the plaintext
characters) and a hostile legacy decoder: decryption recovers the plaintext
and ignores the legacy answer. -/
theorem claim10_encrypt_decrypt_roundtrip_witness :
    CredentialCrypto.decrypt
        ⟨[1], fun _ _ m => m.data.map Char.toNat,
         fun _ _ bs => some (String.mk (bs.map Char.ofNat)),
         fun _ => some "LEGACY-WRONG"⟩
        (CredentialCrypto.encrypt
          ⟨[1], fun _ _ m => m.data.map Char.toNat,
           fun _ _ bs => some (String.mk (bs.map Char.ofNat)),
           fun _ => none⟩
          [0, 255, 16] "gsk_secret") = .ok "gsk_secret" := by
  exact claim10_encrypt_decrypt_roundtrip
    ⟨[1], fun _ _ m => m.data.map Char.toNat,
     fun _ _ bs => some (String.mk (bs.map Char.ofNat)),
     fun _ => none⟩
    [0, 255, 16] "gsk_secret" (fun _ => some "LEGACY-WRONG")
    (by decide) (by decide) (by decide)
